import Mathlib

/-!
Shallow embedding of the `ashpan` crate (RAII guards for Vulkan resources).

Modelling conventions:

* `vk::AllocationCallbacks` is externally owned and only ever threaded through by
  reference; the guard stores `Option<&vk::AllocationCallbacks>`.  We model the
  reference by its pointer identity, a `Nat`, so the stored parameter is
  `Option Nat` (`AllocCbs`).
* The `Destroyable` trait (src/destroy.rs, lines 57-71) has an associated type
  `Destroyer` and an effectful method
  `destroy_with(&mut self, destroyer, allocation_callbacks)`.  We bundle it as a
  structure: the destroyer type, an event type, and a pure function returning the
  post-destruction state of the resource together with the list of destruction
  events the call emits, in emission order.  Events play the role of the
  observable side effects (the crate's own tests observe destruction through
  recording cells in exactly this way).
* Rust mutation is modelled by explicit state passing; `Drop::drop` becomes a
  function from the guard to the event trace it emits.
-/

/-- Pointer identity of an externally owned `vk::AllocationCallbacks`;
`none` models passing `None`. -/
abbrev AllocCbs := Option Nat

/-- The `Destroyable` trait of src/destroy.rs: associated type `Destroyer` plus
`destroy_with`.  `destroyWith r d a` returns the state of the resource after the
call (Rust mutates `&mut self`) and the destruction events emitted by the call. -/
structure Destroyable (R : Type) : Type 1 where
  Destroyer : Type
  Event : Type
  destroyWith : R → Destroyer → AllocCbs → R × List Event

/-- Destruction record emitted by a test resource, mirroring the
`DestructorCalled` struct of the crate's tests: which resource was destroyed,
with which destroyer value and which allocation-callbacks parameter. -/
structure DestroyEvent (D : Type) where
  resourceId : Nat
  destroyer : D
  allocation_callbacks : AllocCbs
deriving DecidableEq, Repr

/-- A minimal atomic destroyable resource (identified by a `Nat`), generic over
the destroyer type, mirroring `TestResource<Destroyer>` in the tests of
src/guarded.rs: destruction records one event carrying the destroyer and the
allocation-callbacks parameter, and leaves the handle itself unchanged. -/
@[reducible] def testDestroyable (D : Type) : Destroyable Nat where
  Destroyer := D
  Event := DestroyEvent D
  destroyWith r d a := (r, [⟨r, d, a⟩])

/-- Body of the `for` loop of `impl Destroyable for Vec<Resource>` /
`impl Destroyable for [Resource; N]` (src/destroy.rs, lines 195-221): destroy
each element in iteration order, concatenating the emitted events. -/
def destroyElems (c : Destroyable R) (d : c.Destroyer) (a : AllocCbs) :
    List R → List c.Event
  | [] => []
  | r :: rest => (c.destroyWith r d a).2 ++ destroyElems c d a rest

/-- Post-states of the elements after the `for resource in self` loop of the
array impl (each element is mutated in place by its own `destroy_with`). -/
def destroyElemsState (c : Destroyable R) (d : c.Destroyer) (a : AllocCbs) :
    List R → List R
  | [] => []
  | r :: rest => (c.destroyWith r d a).1 :: destroyElemsState c d a rest

/-- `impl<Resource: Destroyable> Destroyable for Vec<Resource>`
(src/destroy.rs, lines 195-207): same `Destroyer` type as the element type;
`destroy_with` drains the vector, destroying each drained element in order, so
the container ends empty. -/
@[reducible] def vecDestroyable (c : Destroyable R) : Destroyable (List R) where
  Destroyer := c.Destroyer
  Event := c.Event
  destroyWith rs d a := ([], destroyElems c d a rs)

/-- `impl<Resource: Destroyable, const N: usize> Destroyable for [Resource; N]`
(src/destroy.rs, lines 209-221): same `Destroyer` type as the element type;
`destroy_with` iterates the array by `&mut`, destroying each element in index
order; the array keeps all of its `N` slots (no element is removed — a
fixed-size array cannot shrink), each holding its element's post-state.
The list models the array; its length is the `N` of the Rust type. -/
@[reducible] def arrayDestroyable (c : Destroyable R) : Destroyable (List R) where
  Destroyer := c.Destroyer
  Event := c.Event
  destroyWith rs d a := (destroyElemsState c d a rs, destroyElems c d a rs)

/-- The payload struct `ResourceAndDestroyer` of src/guarded.rs, lines 58-63. -/
structure ResourceAndDestroyer (R D : Type) where
  resource : R
  destroyer : D
  allocation_callbacks : AllocCbs
deriving DecidableEq, Repr

/-- `GuardedResource` (src/guarded.rs, lines 49-56): a newtype around
`Option<ResourceAndDestroyer>`.  The source invariant: the option is always
`Some`, except possibly while being dropped.  The Rust `Destroyer` type
parameter is a smart pointer dereferencing to the trait's destroyer type;
references are identity in this pure model, so the guard stores the destroyer
value directly. -/
structure GuardedResource (R D : Type) where
  val : Option (ResourceAndDestroyer R D)
deriving DecidableEq, Repr

/-- `GuardedResource::new` (src/guarded.rs, lines 77-87): wrap the resource,
destroyer and allocation callbacks; no failure mode. -/
def GuardedResource.new (resource : R) (destroyer : D)
    (allocation_callbacks : AllocCbs) : GuardedResource R D :=
  ⟨some ⟨resource, destroyer, allocation_callbacks⟩⟩

/-- `GuardedResource::destroyer` (src/guarded.rs, lines 90-95):
`self.0.as_ref().unwrap().destroyer.clone()`.  `none` models the `unwrap`
panic branch (reached only if the internal option were `None`). -/
def GuardedResource.destroyer (g : GuardedResource R D) : Option D :=
  g.val.map (fun rd => rd.destroyer)

/-- `GuardedResource::allocation_callbacks` (src/guarded.rs, lines 98-100):
`self.0.as_ref().unwrap().allocation_callbacks`.  The outer `none` models the
`unwrap` panic branch. -/
def GuardedResource.allocation_callbacks (g : GuardedResource R D) :
    Option AllocCbs :=
  g.val.map (fun rd => rd.allocation_callbacks)

/-- `impl Deref for GuardedResource` (src/guarded.rs, lines 297-307):
`&self.0.as_ref().unwrap().resource`; `none` models the `unwrap` panic branch. -/
def GuardedResource.deref (g : GuardedResource R D) : Option R :=
  g.val.map (fun rd => rd.resource)

/-- `impl DerefMut for GuardedResource` (src/guarded.rs, lines 309-317):
`&mut self.0.as_mut().unwrap().resource`; `none` models the `unwrap` panic
branch.  Mutation through the returned reference is modelled by the dedicated
operations below (`push`, `pop`). -/
def GuardedResource.deref_mut (g : GuardedResource R D) : Option R :=
  g.val.map (fun rd => rd.resource)

/-- `impl Drop for GuardedResource` (src/guarded.rs, lines 319-334): if the
option is still `Some`, call `resource.destroy_with(destroyer,
*allocation_callbacks)`; if it is `None` (the guard was consumed by `take`), do
nothing.  Returns the destruction events the drop emits. -/
def GuardedResource.drop (c : Destroyable R) (g : GuardedResource R c.Destroyer) :
    List c.Event :=
  match g.val with
  | none => []
  | some rd => (c.destroyWith rd.resource rd.destroyer rd.allocation_callbacks).2

/-- `GuardedResource::take` (src/guarded.rs, lines 110-112):
`self.0.take().unwrap().resource`.  `Option::take` leaves `None` behind, and the
by-value `self` is then dropped at the end of the method; the second component
is the event trace of that implicit drop.  The extracted resource is `none`
only on the `unwrap` panic branch. -/
def GuardedResource.take (c : Destroyable R) (g : GuardedResource R c.Destroyer) :
    Option R × List c.Event :=
  (g.val.map (fun rd => rd.resource),
   GuardedResource.drop c ⟨(none : Option (ResourceAndDestroyer R c.Destroyer))⟩)

/-- `Vec::push` reached through `DerefMut` (used by `try_new_from`,
src/guarded.rs, line 175): append the element to the guarded vector.  On the
(unreachable, see the invariant of src/guarded.rs, line 51) consumed state the
Rust code would panic in `deref_mut`; the model leaves the guard unchanged
there. -/
def GuardedResource.push (g : GuardedResource (List R) D) (r : R) :
    GuardedResource (List R) D :=
  ⟨g.val.map (fun rd =>
    ⟨rd.resource ++ [r], rd.destroyer, rd.allocation_callbacks⟩)⟩

/-- `Vec::pop` reached through `DerefMut` (the element-removal pass-through of
the Vec-shaped guard): remove and return the last element, leaving the rest
under guard management.  The outer `none` models the `deref_mut` `unwrap` panic
branch on a consumed guard. -/
def GuardedResource.pop (g : GuardedResource (List R) D) :
    Option (Option R × GuardedResource (List R) D) :=
  g.val.map (fun rd =>
    (rd.resource.getLast?,
     ⟨some ⟨rd.resource.dropLast, rd.destroyer, rd.allocation_callbacks⟩⟩))

/-- The `for resource in resources` loop of `GuardedResource::try_new_from`
(src/guarded.rs, lines 174-176): `guarded_resources.push(resource?)`.  On the
first `Err`, the `?` returns it and the local guard is dropped, destroying the
accumulated elements; the iterator's remaining items are left unconsumed.
Result: the outcome, the destruction events emitted during the call, and the
unconsumed remainder of the input. -/
def tryNewFromLoop (c : Destroyable R)
    (g : GuardedResource (List R) c.Destroyer) :
    List (Except Err R) →
      Except Err (GuardedResource (List R) c.Destroyer)
        × List c.Event × List (Except Err R)
  | [] => (.ok g, [], [])
  | .ok r :: rest => tryNewFromLoop c (g.push r) rest
  | .error e :: rest => (.error e, GuardedResource.drop (vecDestroyable c) g, rest)

/-- `GuardedResource::try_new_from` (src/guarded.rs, lines 161-178): start from
a guard over an empty vector (`Vec::with_capacity` only preallocates; the
capacity hint is not semantic) and run the loop.  Returns the outcome, the
destruction events emitted during the call, and the unconsumed input
remainder. -/
def GuardedResource.try_new_from (c : Destroyable R)
    (resources : List (Except Err R)) (destroyer : c.Destroyer)
    (allocation_callbacks : AllocCbs) :
    Except Err (GuardedResource (List R) c.Destroyer)
      × List c.Event × List (Except Err R) :=
  tryNewFromLoop c
    (GuardedResource.new ([] : List R) destroyer allocation_callbacks) resources

/-- The `for (i, resource) in resources.iter_mut().enumerate()` loop of
`GuardedResource::try_new_with` (src/guarded.rs, lines 235-241).  The Rust loop
fills an `[Option<GuardedResource<..>>; N]` left to right; `acc` is the prefix
of slots already holding a transient guard (the untouched `None` tail
contributes nothing when dropped, so it is not represented).  On a factory
error at index `i` the partially filled array is dropped, running each
transient guard's drop in ascending slot order.  On completing `fuel`
iterations every slot is `expect`ed and `take`n into the result array (the
`expect` cannot fail: every stored slot was just filled).  Components: the
outcome (the assembled element list or the first error), the destruction
events emitted during the call, and the list of indices at which the factory
was invoked, in invocation order. -/
def tryNewWithLoop (c : Destroyable R) (factory : Nat → Except Err R)
    (d : c.Destroyer) (a : AllocCbs) :
    Nat → Nat → List (GuardedResource R c.Destroyer) →
      Except Err (List R) × List c.Event × List Nat
  | 0, _, acc =>
      (.ok (acc.filterMap (fun g => (GuardedResource.take c g).1)), [], [])
  | fuel + 1, i, acc =>
      match factory i with
      | .error e =>
          (.error e, (acc.map (fun g => GuardedResource.drop c g)).flatten, [i])
      | .ok r =>
          let step := tryNewWithLoop c factory d a fuel (i + 1)
            (acc ++ [GuardedResource.new r d a])
          (step.1, step.2.1, i :: step.2.2)

/-- `GuardedResource::try_new_with` (src/guarded.rs, lines 228-250): run the
factory at indices `0, 1, ...` over the `N` slots; each produced resource is
immediately wrapped in a transient single-resource guard sharing the outer
destroyer (`&*destroyer`, modelled as the same destroyer value `d`).  On full
success the transient guards are all `take`n and the assembled array is wrapped
by `Self::new`; on a factory failure the first error is returned after the
partially filled slots are dropped in ascending order.  Components: the
outcome, the destruction events emitted during the call, and the indices at
which the factory was invoked, in invocation order.  The list held by the
resulting guard models the `[Resource; N]` array; its length is `n`. -/
def GuardedResource.try_new_with (c : Destroyable R) (n : Nat)
    (factory : Nat → Except Err R) (destroyer : c.Destroyer)
    (allocation_callbacks : AllocCbs) :
    Except Err (GuardedResource (List R) c.Destroyer)
      × List c.Event × List Nat :=
  let step := tryNewWithLoop c factory destroyer allocation_callbacks n 0 []
  (step.1.map (fun rs => GuardedResource.new rs destroyer allocation_callbacks),
   step.2.1, step.2.2)

/-- `impl Destroyable for ash::Instance` (src/destroy.rs, lines 73-83):
`type Destroyer = ()`; destruction is `self.destroy_instance(allocation_callbacks)`,
performed by the resource itself with no external destroyer.  The record emitted
by that call: the instance's identity and the allocation-callbacks parameter. -/
structure RootDestroyEvent where
  rootId : Nat
  allocation_callbacks : AllocCbs
deriving DecidableEq, Repr

/-- Capability of `ash::Instance` (src/destroy.rs, lines 73-83): unit destroyer;
`destroy_with` calls `destroy_instance` on the instance itself. -/
@[reducible] def instanceDestroyable : Destroyable Nat where
  Destroyer := Unit
  Event := RootDestroyEvent
  destroyWith r _ a := (r, [⟨r, a⟩])

/-- Capability of `ash::Device` (src/destroy.rs, lines 85-95): unit destroyer;
`destroy_with` calls `destroy_device` on the device itself. -/
@[reducible] def deviceDestroyable : Destroyable Nat where
  Destroyer := Unit
  Event := RootDestroyEvent
  destroyWith r _ a := (r, [⟨r, a⟩])

/-- Record of one invocation of a creation primitive: the create-info argument
and the allocation-callbacks argument it was passed. -/
structure CreateCall (CI : Type) where
  create_info : CI
  allocation_callbacks : AllocCbs
deriving DecidableEq, Repr

/-- The `definition!` template of src/device.rs, lines 21-36, shared by every
generated `create_guarded_*` / `allocate_guarded_*` method of `DeviceExt`:
`let resource = self.$create(create_info, allocation_callbacks)?;
Ok(GuardedResource::new(resource, self.clone(), allocation_callbacks))`.
The creation primitive is the parameter `create`; the second component logs the
primitive invocations the method performs, each with the arguments passed.
`self.clone()` clones the device smart pointer (same referent), modelled as the
value `self` itself. -/
def DeviceExt.create_guarded (create : CI → AllocCbs → Except Err R) (self : D)
    (create_info : CI) (allocation_callbacks : AllocCbs) :
    Except Err (GuardedResource R D) × List (CreateCall CI) :=
  (match create create_info allocation_callbacks with
   | .error e => .error e
   | .ok resource =>
       .ok (GuardedResource.new resource self allocation_callbacks),
   [⟨create_info, allocation_callbacks⟩])

/-- `DeviceExt::create_guarded_graphics_pipelines` and
`create_guarded_compute_pipelines` (src/device.rs, lines 228-252): one call to
the creation primitive; both the success value and the error-side pipelines are
wrapped by `guard = |pipelines| GuardedResource::new(pipelines, self.clone(),
allocation_callbacks)`. -/
def DeviceExt.create_guarded_pipelines
    (create : PC → CIs → AllocCbs → Except (R × VkErr) R) (self : D)
    (pipeline_cache : PC) (create_infos : CIs) (allocation_callbacks : AllocCbs) :
    Except (GuardedResource R D × VkErr) (GuardedResource R D)
      × List (CreateCall CIs) :=
  (match create pipeline_cache create_infos allocation_callbacks with
   | .ok pipelines =>
       .ok (GuardedResource.new pipelines self allocation_callbacks)
   | .error (pipelines, code) =>
       .error (GuardedResource.new pipelines self allocation_callbacks, code),
   [⟨create_infos, allocation_callbacks⟩])

/-- `EntryExt::create_guarded_instance` (src/entry.rs, lines 16-25):
`let instance = self.create_instance(create_info, allocation_callbacks)?;
Ok(GuardedResource::new(instance, &(), allocation_callbacks))`.  The destroyer
is the unit reference. -/
def EntryExt.create_guarded_instance
    (create_instance : CI → AllocCbs → Except Err R) (create_info : CI)
    (allocation_callbacks : AllocCbs) :
    Except Err (GuardedResource R Unit) × List (CreateCall CI) :=
  (match create_instance create_info allocation_callbacks with
   | .error e => .error e
   | .ok inst =>
       .ok (GuardedResource.new inst () allocation_callbacks),
   [⟨create_info, allocation_callbacks⟩])

/-- `InstanceExt::create_guarded_device` (src/instance.rs, lines 17-27):
`let device = self.create_device(physical_device, create_info,
allocation_callbacks)?;
Ok(GuardedResource::new(device, &(), allocation_callbacks))`. -/
def InstanceExt.create_guarded_device
    (create_device : PD → CI → AllocCbs → Except Err R) (physical_device : PD)
    (create_info : CI) (allocation_callbacks : AllocCbs) :
    Except Err (GuardedResource R Unit) × List (CreateCall CI) :=
  (match create_device physical_device create_info allocation_callbacks with
   | .error e => .error e
   | .ok device => .ok (GuardedResource.new device () allocation_callbacks),
   [⟨create_info, allocation_callbacks⟩])

/-! Helper lemmas about the embedding. -/

/-- The element loop of the composite destroy emits, in order, each element's
events: ascending index order, lowest index first. -/
theorem destroyElems_eq_flatMap (c : Destroyable R) (d : c.Destroyer)
    (a : AllocCbs) (rs : List R) :
    destroyElems c d a rs = rs.flatMap (fun r => (c.destroyWith r d a).2) := by
  induction rs with
  | nil => rfl
  | cons r rest ih => simp [destroyElems, ih]

/-- The array destroy loop leaves each slot holding its element's
post-destruction state. -/
theorem destroyElemsState_eq_map (c : Destroyable R) (d : c.Destroyer)
    (a : AllocCbs) (rs : List R) :
    destroyElemsState c d a rs = rs.map (fun r => (c.destroyWith r d a).1) := by
  induction rs with
  | nil => rfl
  | cons r rest ih => simp [destroyElemsState, ih]

/-- Dropping a freshly constructed guard runs `destroy_with` on the held
resource with the stored destroyer and allocation callbacks. -/
theorem drop_new (c : Destroyable R) (r : R) (d : c.Destroyer) (a : AllocCbs) :
    GuardedResource.drop c (GuardedResource.new r d a)
      = (c.destroyWith r d a).2 := rfl

/-- Pushing through a live guard appends to the guarded vector. -/
theorem push_new (rs : List R) (r : R) (d : D) (a : AllocCbs) :
    (GuardedResource.new rs d a).push r
      = GuardedResource.new (rs ++ [r]) d a := rfl

/-- A prefix of successes is accumulated, element by element, into the guarded
vector before the rest of the input is examined. -/
theorem tryNewFromLoop_ok_advance (c : Destroyable R) (d : c.Destroyer)
    (a : AllocCbs) :
    ∀ (pre acc : List R) (l : List (Except Err R)),
      tryNewFromLoop c (GuardedResource.new acc d a) (pre.map Except.ok ++ l)
        = tryNewFromLoop c (GuardedResource.new (acc ++ pre) d a) l := by
  intro pre
  induction pre with
  | nil => intro acc l; simp
  | cons p pre ih =>
      intro acc l
      have h := ih (acc ++ [p]) l
      simpa [tryNewFromLoop, push_new] using h

/-- Running the loop into a first error drops the accumulated guard and hands
back that error and the unconsumed remainder. -/
theorem tryNewFromLoop_error (c : Destroyable R) (d : c.Destroyer)
    (a : AllocCbs) (acc : List R) (e : Err) (post : List (Except Err R)) :
    tryNewFromLoop c (GuardedResource.new acc d a) (Except.error e :: post)
      = (.error e, destroyElems c d a acc, post) := rfl

/-- Running the loop over successes only returns the fully accumulated guard,
emitting no destruction events and consuming the whole input. -/
theorem tryNewFromLoop_all_ok (c : Destroyable R) (d : c.Destroyer)
    (a : AllocCbs) (pre acc : List R) :
    tryNewFromLoop c (GuardedResource.new acc d a)
        ((pre.map Except.ok : List (Except Err R)))
      = (.ok (GuardedResource.new (acc ++ pre) d a), [], []) := by
  have h := @tryNewFromLoop_ok_advance R Err c d a pre acc []
  simpa [tryNewFromLoop] using h

/-- Shifting a contiguous index range by one step. -/
theorem range_map_add_succ (i k : Nat) :
    i :: (List.range (k + 1)).map (fun j => (i + 1) + j)
      = (List.range (k + 2)).map (fun j => i + j) := by
  have h : ((fun j => i + j) ∘ Nat.succ) = fun j => (i + 1) + j := by
    funext j
    simp [Function.comp]
    omega
  conv_rhs => rw [List.range_succ_eq_map, List.map_cons, List.map_map, h]
  simp

/-- Behaviour of the `try_new_with` fill loop when the factory succeeds at
offsets `0..rs.length-1` from the current index `i` and fails at offset
`rs.length`: the slots already filled (including those in `acc`) are dropped in
ascending order, the error is surfaced, and the factory was invoked exactly at
the indices `i..i+rs.length`, ascending. -/
theorem tryNewWithLoop_spec (c : Destroyable R) (factory : Nat → Except Err R)
    (d : c.Destroyer) (a : AllocCbs) (e : Err) :
    ∀ (rs : List R) (i : Nat) (acc : List (GuardedResource R c.Destroyer))
      (fuel : Nat), rs.length < fuel →
      (∀ j (hj : j < rs.length), factory (i + j) = .ok (rs.get ⟨j, hj⟩)) →
      factory (i + rs.length) = .error e →
      tryNewWithLoop c factory d a fuel i acc
        = (.error e,
           ((acc ++ rs.map (fun r => GuardedResource.new r d a)).map
              (fun g => GuardedResource.drop c g)).flatten,
           (List.range (rs.length + 1)).map (fun j => i + j)) := by
  intro rs
  induction rs with
  | nil =>
      intro i acc fuel hfuel hok herr
      match fuel, hfuel with
      | fuel + 1, _ =>
          simp only [List.length_nil, Nat.add_zero] at herr
          simp [tryNewWithLoop, herr, List.range_succ]
  | cons r rs ih =>
      intro i acc fuel hfuel hok herr
      match fuel, hfuel with
      | fuel + 1, hfuel =>
          have h0 : factory i = .ok r := by
            have := hok 0 (by simp)
            simpa using this
          have hok' : ∀ j (hj : j < rs.length),
              factory ((i + 1) + j) = .ok (rs.get ⟨j, hj⟩) := by
            intro j hj
            have := hok (j + 1) (by simpa using Nat.succ_lt_succ hj)
            have harith : i + (j + 1) = (i + 1) + j := by omega
            simpa [harith] using this
          have herr' : factory ((i + 1) + rs.length) = .error e := by
            have harith : i + (r :: rs).length = (i + 1) + rs.length := by
              simp; omega
            rw [harith] at herr
            exact herr
          have hstep := ih (i + 1) (acc ++ [GuardedResource.new r d a]) fuel
            (by simpa using Nat.lt_of_succ_lt_succ hfuel) hok' herr'
          simp only [tryNewWithLoop, h0, hstep, Prod.mk.injEq, true_and]
          refine ⟨?_, ?_⟩
          · simp
          · have := range_map_add_succ i (rs.length)
            simpa using this

/-- Pushing preserves liveness of a guard. -/
theorem push_isSome (g : GuardedResource (List R) D) (r : R)
    (h : g.val.isSome) : ((g.push r).val).isSome := by
  cases hv : g.val with
  | none => rw [hv] at h; cases h
  | some rd => simp [GuardedResource.push, hv]

/-- If the `try_new_from` loop returns `Ok`, the returned guard is the
accumulator, so it is live whenever the accumulator was. -/
theorem tryNewFromLoop_ok_isSome (c : Destroyable R) :
    ∀ (l : List (Except Err R)) (g g' : GuardedResource (List R) c.Destroyer)
      (evs : List c.Event) (rem : List (Except Err R)), g.val.isSome →
      tryNewFromLoop c g l = (.ok g', evs, rem) → g'.val.isSome := by
  intro l
  induction l with
  | nil =>
      intro g g' evs rem hg h
      simp only [tryNewFromLoop, Prod.mk.injEq, Except.ok.injEq] at h
      rw [← h.1]
      exact hg
  | cons x l ih =>
      cases x with
      | ok r =>
          intro g g' evs rem hg h
          simp only [tryNewFromLoop] at h
          exact ih (g.push r) g' evs rem (push_isSome g r hg) h
      | error e =>
          intro g g' evs rem hg h
          simp only [tryNewFromLoop, Prod.mk.injEq] at h
          exact absurd h.1 (by simp)

/-!  The claims. -/

/-- C1.  A guard constructed by `new` (or over the vector accumulated by a
fully successful `try_new_from`) and dropped without `take` invokes
`destroy_with` exactly once per held resource, with exactly the destroyer and
the allocation-callbacks value supplied at construction: the drop of a
single-resource guard over `r` emits the single event `⟨r, d, a⟩`, and the drop
of the bulk-constructed guard over `rs` emits exactly one such event per
element. -/
theorem claim1_exactly_once_destruction (D Err : Type) (r : Nat) (d : D)
    (a : AllocCbs) (rs : List Nat) :
    GuardedResource.drop (testDestroyable D) (GuardedResource.new r d a)
      = [⟨r, d, a⟩]
  ∧ (∀ (R : Type) (c : Destroyable R) (x : R) (dx : c.Destroyer)
      (ax : AllocCbs),
      GuardedResource.drop c (GuardedResource.new x dx ax)
        = (c.destroyWith x dx ax).2)
  ∧ GuardedResource.try_new_from (testDestroyable D)
      (rs.map Except.ok : List (Except Err Nat)) d a
      = (.ok (GuardedResource.new rs d a), [], [])
  ∧ GuardedResource.drop (vecDestroyable (testDestroyable D))
      (GuardedResource.new rs d a) = rs.map (fun x => ⟨x, d, a⟩) := by
  refine ⟨rfl, fun _ _ _ _ _ => rfl, ?_, ?_⟩
  · unfold GuardedResource.try_new_from
    have h := @tryNewFromLoop_all_ok Nat Err (testDestroyable D) d a rs []
    simpa using h
  · show destroyElems (testDestroyable D) d a rs = _
    rw [destroyElems_eq_flatMap]
    induction rs with
    | nil => rfl
    | cons x rest ih => simp_all

/-- C2.  If the input to `try_new_from` is a prefix of successes `pre` followed
by a first error `e` and arbitrary remaining items `post`, then iteration stops
at that error: exactly the resources of `pre` are destroyed, in ascending index
order (the concatenation, in list order, of each element's destroy events, with
the supplied destroyer and allocation callbacks), the first error `e` is
returned, and the remainder `post` is handed back unconsumed and uninspected. -/
theorem claim2_try_new_from_rollback (R Err : Type) (c : Destroyable R)
    (pre : List R) (e : Err) (post : List (Except Err R)) (d : c.Destroyer)
    (a : AllocCbs) :
    GuardedResource.try_new_from c
        (pre.map Except.ok ++ Except.error e :: post) d a
      = (.error e, pre.flatMap (fun r => (c.destroyWith r d a).2), post) := by
  unfold GuardedResource.try_new_from
  rw [tryNewFromLoop_ok_advance c d a pre [] (Except.error e :: post)]
  simp [tryNewFromLoop_error, destroyElems_eq_flatMap]

/-- C3.  `take` extracts exactly the held resource; no destroy operation runs
at extraction (the residual guard dropped inside `take` is empty and its drop
emits nothing), and dropping any consumed guard emits nothing. -/
theorem claim3_take_suppresses_destruction (R : Type) (c : Destroyable R)
    (r : R) (d : c.Destroyer) (a : AllocCbs)
    (g : GuardedResource R c.Destroyer) :
    (GuardedResource.take c (GuardedResource.new r d a)).1 = some r
  ∧ (GuardedResource.take c g).2 = []
  ∧ GuardedResource.drop c
      (⟨none⟩ : GuardedResource R c.Destroyer) = [] :=
  ⟨rfl, rfl, rfl⟩

/-- C8.  The capabilities of `ash::Instance` and `ash::Device` have the unit
type as destroyer, and a resource with a unit destroyer can be guarded with
destroyer value `()` and dropped, destruction being performed by the resource
itself (the emitted event carries no external destroyer, only the resource and
the allocation callbacks); such a guard can equally be released by `take`. -/
theorem claim8_unit_destroyer (r : Nat) (a : AllocCbs) :
    instanceDestroyable.Destroyer = Unit
  ∧ deviceDestroyable.Destroyer = Unit
  ∧ GuardedResource.drop instanceDestroyable (GuardedResource.new r () a)
      = [⟨r, a⟩]
  ∧ GuardedResource.drop deviceDestroyable (GuardedResource.new r () a)
      = [⟨r, a⟩]
  ∧ GuardedResource.take instanceDestroyable (GuardedResource.new r () a)
      = (some r, []) :=
  ⟨rfl, rfl, rfl, rfl, rfl⟩

/-- C10.  With `N = 0`, `try_new_with` always succeeds with a guard over the
empty array, emits no destruction events, and never invokes the factory (the
invocation log is empty), for every factory and every error type. -/
theorem claim10_try_new_with_zero (R Err : Type) (c : Destroyable R)
    (factory : Nat → Except Err R) (d : c.Destroyer) (a : AllocCbs) :
    GuardedResource.try_new_with c 0 factory d a
      = (.ok (GuardedResource.new ([] : List R) d a), [], []) := rfl

/-- C5, counterexample to the claim as stated.  The fixed-size-array capability
does not remove elements from the container as they are destroyed: destroying
the one-element array `[7]` emits the destruction event for its element, yet
the container afterwards still holds that element (it is `[7]`, not the emptied
container `[]`) — `for resource in self` iterates the array in place and a
fixed-size array cannot shrink. -/
theorem claim5_array_keeps_elements_counterexample :
    ((arrayDestroyable (testDestroyable Unit)).destroyWith [7] () none).2
      = [⟨7, (), none⟩]
  ∧ ((arrayDestroyable (testDestroyable Unit)).destroyWith [7] () none).1
      = [7]
  ∧ ((arrayDestroyable (testDestroyable Unit)).destroyWith [7] () none).1
      ≠ [] :=
  ⟨rfl, rfl, by decide⟩

/-- C5, amended.  For every element capability, the derived capabilities of the
ordered sequence (`Vec<R>`) and of the fixed-size array (`[R; N]`) have the
same `DestroyerType` as `R`, and both destroy every element in ascending index
order (the emitted trace is the in-order concatenation of each element's
destroy events).  The `Vec` capability removes each element from the container
as it is destroyed (draining it, leaving the container empty); the array
capability destroys its elements in place, the container keeping all of its
slots (holding each element's post-destruction state) — elements are not
removed from a fixed-size array. -/
theorem claim5_composite_capability (R : Type) (c : Destroyable R)
    (rs : List R) (d : c.Destroyer) (a : AllocCbs) :
    (vecDestroyable c).Destroyer = c.Destroyer
  ∧ (arrayDestroyable c).Destroyer = c.Destroyer
  ∧ (vecDestroyable c).destroyWith rs d a
      = ([], rs.flatMap (fun r => (c.destroyWith r d a).2))
  ∧ (arrayDestroyable c).destroyWith rs d a
      = (rs.map (fun r => (c.destroyWith r d a).1),
         rs.flatMap (fun r => (c.destroyWith r d a).2)) := by
  refine ⟨rfl, rfl, ?_, ?_⟩
  · have h : (vecDestroyable c).destroyWith rs d a
        = (([] : List R), destroyElems c d a rs) := rfl
    rw [h, destroyElems_eq_flatMap]
  · have h : (arrayDestroyable c).destroyWith rs d a
        = (destroyElemsState c d a rs, destroyElems c d a rs) := rfl
    rw [h, destroyElems_eq_flatMap, destroyElemsState_eq_map]

/-- C6.  Removing the last element of a non-empty Vec-shaped guard via `pop`
(through the mutable-access protocol) yields that element without destroying
it; the guard keeps the remaining elements, and its later drop destroys exactly
those remaining elements, in ascending index order, with the stored destroyer
and allocation callbacks — no destroy event for the removed element is ever
emitted by the guard (provided the element does not also occur among the
remaining ones). -/
theorem claim6_pop_extraction (D : Type) (rs : List Nat) (r : Nat) (d : D)
    (a : AllocCbs) :
    GuardedResource.pop (GuardedResource.new (rs ++ [r]) d a)
      = some (some r, GuardedResource.new rs d a)
  ∧ GuardedResource.drop (vecDestroyable (testDestroyable D))
      (GuardedResource.new rs d a) = rs.map (fun x => ⟨x, d, a⟩)
  ∧ (r ∉ rs →
      ∀ ev ∈ GuardedResource.drop (vecDestroyable (testDestroyable D))
        (GuardedResource.new rs d a), DestroyEvent.resourceId ev ≠ r) := by
  have hdrop : GuardedResource.drop (vecDestroyable (testDestroyable D))
      (GuardedResource.new rs d a) = rs.map (fun x => ⟨x, d, a⟩) := by
    show destroyElems (testDestroyable D) d a rs = _
    rw [destroyElems_eq_flatMap]
    induction rs with
    | nil => rfl
    | cons x rest ih => simp_all
  refine ⟨?_, hdrop, ?_⟩
  · simp [GuardedResource.pop, GuardedResource.new]
  · intro hnot ev hev
    rw [hdrop] at hev
    simp only [List.mem_map] at hev
    obtain ⟨x, hx, hevx⟩ := hev
    subst hevx
    show x ≠ r
    intro hcontra
    subst hcontra
    exact hnot hx

/-- C6 witness: popping the guard over `[1, 2, 3]` yields `3` and leaves the
guard over `[1, 2]`, whose drop events never mention `3`. -/
theorem claim6_pop_extraction_witness :
    GuardedResource.pop (GuardedResource.new ([1, 2] ++ [3]) (42 : Nat)
        (some 7))
      = some (some 3, GuardedResource.new [1, 2] 42 (some 7))
  ∧ ∀ ev ∈ GuardedResource.drop (vecDestroyable (testDestroyable Nat))
      (GuardedResource.new [1, 2] 42 (some 7)),
      DestroyEvent.resourceId ev ≠ 3 := by
  have h := claim6_pop_extraction Nat [1, 2] 3 42 (some 7)
  exact ⟨h.1, h.2.2 (by decide)⟩

/-- Dropping, slot by slot, the transient guards built over `rs` emits each
element's destroy events, concatenated in list order. -/
theorem flatten_map_drop_new (c : Destroyable R) (d : c.Destroyer)
    (a : AllocCbs) (rs : List R) :
    ((rs.map (fun r => GuardedResource.new r d a)).map
        (fun g => GuardedResource.drop c g)).flatten
      = rs.flatMap (fun r => (c.destroyWith r d a).2) := by
  induction rs with
  | nil => rfl
  | cons r rest ih => simp_all [drop_new]

/-- C4.  If the factory passed to `try_new_with` succeeds at indices
`0..rs.length-1` (producing the resources `rs`) and fails at index `rs.length`
(within the `n` slots), then the factory was invoked exactly at the indices
`0, 1, ..., rs.length`, in ascending order and never beyond the failing index;
the resources produced before the failure are destroyed through their
per-element transient guards (each constructed with the shared outer destroyer
and the allocation callbacks) in ascending index order, and that first error is
returned. -/
theorem claim4_try_new_with_rollback (R Err : Type) (c : Destroyable R)
    (factory : Nat → Except Err R) (d : c.Destroyer) (a : AllocCbs)
    (rs : List R) (e : Err) (n : Nat) (hn : rs.length < n)
    (hok : ∀ j (hj : j < rs.length), factory j = .ok (rs.get ⟨j, hj⟩))
    (herr : factory rs.length = .error e) :
    GuardedResource.try_new_with c n factory d a
      = (.error e, rs.flatMap (fun r => (c.destroyWith r d a).2),
         List.range (rs.length + 1)) := by
  unfold GuardedResource.try_new_with
  rw [tryNewWithLoop_spec c factory d a e rs 0 [] n hn
    (by intro j hj; simpa using hok j hj) (by simpa using herr)]
  simp only [List.nil_append, Prod.mk.injEq, Nat.zero_add]
  refine ⟨rfl, flatten_map_drop_new c d a rs, by simp⟩

/-- C4 witness: with four slots and a factory succeeding at indices 0 and 1
and failing at index 2, the two produced resources are destroyed in ascending
order, the error is returned, and the factory was invoked exactly at 0, 1, 2. -/
theorem claim4_try_new_with_rollback_witness :
    GuardedResource.try_new_with (testDestroyable Nat) 4
        (fun i => if i < 2 then Except.ok (100 + i) else Except.error "oh no")
        42 (some 7)
      = (.error "oh no",
         [100, 101].flatMap
           (fun r => ((testDestroyable Nat).destroyWith r 42 (some 7)).2),
         List.range 3) := by
  exact claim4_try_new_with_rollback Nat String (testDestroyable Nat)
    (fun i => if i < 2 then Except.ok (100 + i) else Except.error "oh no")
    42 (some 7) [100, 101] "oh no" 4 (by decide)
    (by
      intro j hj
      match j, hj with
      | 0, _ => rfl
      | 1, _ => rfl)
    rfl

/-- C7.  Each convenience constructor calls exactly one creation primitive
(its invocation log holds a single call, carrying the very
`allocation_callbacks` value the method received) and, on success, wraps the
created resource in a guard built by `GuardedResource::new` with that same
`allocation_callbacks` value, so that dropping the guard later replays the
same parameter to the destroy operation; on failure the primitive's error is
propagated unwrapped. -/
theorem claim7_convenience_constructors (CI CIs PC PD Err VkErr R D : Type)
    (create : CI → AllocCbs → Except Err R)
    (createP : PC → CIs → AllocCbs → Except (R × VkErr) R)
    (create_instance : CI → AllocCbs → Except Err R)
    (create_device : PD → CI → AllocCbs → Except Err R)
    (self : D) (pc : PC) (cis : CIs) (pd : PD) (ci : CI) (a : AllocCbs) :
    (DeviceExt.create_guarded create self ci a).2 = [⟨ci, a⟩]
  ∧ (∀ r, create ci a = .ok r →
      (DeviceExt.create_guarded create self ci a).1
        = .ok (GuardedResource.new r self a))
  ∧ (∀ e, create ci a = .error e →
      (DeviceExt.create_guarded create self ci a).1 = .error e)
  ∧ (DeviceExt.create_guarded_pipelines createP self pc cis a).2 = [⟨cis, a⟩]
  ∧ (∀ r, createP pc cis a = .ok r →
      (DeviceExt.create_guarded_pipelines createP self pc cis a).1
        = .ok (GuardedResource.new r self a))
  ∧ (EntryExt.create_guarded_instance create_instance ci a).2 = [⟨ci, a⟩]
  ∧ (∀ r, create_instance ci a = .ok r →
      (EntryExt.create_guarded_instance create_instance ci a).1
        = .ok (GuardedResource.new r () a))
  ∧ (InstanceExt.create_guarded_device create_device pd ci a).2 = [⟨ci, a⟩]
  ∧ (∀ r, create_device pd ci a = .ok r →
      (InstanceExt.create_guarded_device create_device pd ci a).1
        = .ok (GuardedResource.new r () a))
  ∧ (∀ (x : Nat) (dd : D),
      GuardedResource.drop (testDestroyable D) (GuardedResource.new x dd a)
        = [⟨x, dd, a⟩]) := by
  refine ⟨rfl, ?_, ?_, rfl, ?_, rfl, ?_, rfl, ?_, fun _ _ => rfl⟩
  · intro r h; simp [DeviceExt.create_guarded, h]
  · intro e h; simp [DeviceExt.create_guarded, h]
  · intro r h; simp [DeviceExt.create_guarded_pipelines, h]
  · intro r h; simp [EntryExt.create_guarded_instance, h]
  · intro r h; simp [InstanceExt.create_guarded_device, h]

/-- C7 witness: a primitive succeeding with resource `9` is logged exactly
once with the allocation callbacks `some 3`, and the method wraps `9` with the
same `some 3`. -/
theorem claim7_convenience_constructors_witness :
    (DeviceExt.create_guarded
        (fun (ci : Nat) (_ : AllocCbs) => (Except.ok ci : Except String Nat))
        (42 : Nat) 9 (some 3)).2 = [⟨9, some 3⟩]
  ∧ (DeviceExt.create_guarded
        (fun (ci : Nat) (_ : AllocCbs) => (Except.ok ci : Except String Nat))
        (42 : Nat) 9 (some 3)).1
      = .ok (GuardedResource.new 9 42 (some 3)) := by
  have h := claim7_convenience_constructors Nat Nat Nat Nat String String Nat
    Nat (fun ci _ => .ok ci) (fun _ _ _ => .ok 0) (fun ci _ => .ok ci)
    (fun _ ci _ => .ok ci) 42 0 0 0 9 (some 3)
  exact ⟨h.1, h.2.1 9 rfl⟩

/-- C9.  Every guard obtainable through the public interface is live: `new`
always yields a guard whose internal option is `Some`, the guards returned by
successful `try_new_from` and `try_new_with` are live, and the mutable-access
operations `push` and `pop` preserve liveness.  Consequently, on such guards
the accessors `destroyer`, `allocation_callbacks`, `Deref` and `DerefMut`
never reach their `unwrap` panic branch (modelled as the `none` result). -/
theorem claim9_internal_option_always_some (R : Type) (c : Destroyable R)
    (r : R) (d : c.Destroyer) (a : AllocCbs) :
    ((GuardedResource.new r d a).val).isSome
  ∧ (∀ (Err : Type) (input : List (Except Err R))
      (g : GuardedResource (List R) c.Destroyer) evs rem,
      GuardedResource.try_new_from c input d a = (.ok g, evs, rem) →
        g.val.isSome)
  ∧ (∀ (Err : Type) (n : Nat) (factory : Nat → Except Err R)
      (g : GuardedResource (List R) c.Destroyer) evs inv,
      GuardedResource.try_new_with c n factory d a = (.ok g, evs, inv) →
        g.val.isSome)
  ∧ (∀ g : GuardedResource R c.Destroyer, g.val.isSome →
      g.destroyer.isSome ∧ g.allocation_callbacks.isSome
        ∧ g.deref.isSome ∧ g.deref_mut.isSome)
  ∧ (∀ (g : GuardedResource (List R) c.Destroyer) (x : R), g.val.isSome →
      ((g.push x).val).isSome ∧ g.pop.isSome
        ∧ ∀ p, g.pop = some p → (p.2.val).isSome) := by
  refine ⟨rfl, ?_, ?_, ?_, ?_⟩
  · intro Err input g evs rem h
    unfold GuardedResource.try_new_from at h
    exact tryNewFromLoop_ok_isSome c input
      (GuardedResource.new ([] : List R) d a) g evs rem rfl h
  · intro Err n factory g evs inv h
    simp only [GuardedResource.try_new_with, Prod.mk.injEq] at h
    obtain ⟨h1, -, -⟩ := h
    rcases hstep : (tryNewWithLoop c factory d a n 0 []).1 with e | rs
    · rw [hstep] at h1
      simp [Except.map] at h1
    · rw [hstep] at h1
      simp only [Except.map, Except.ok.injEq] at h1
      rw [← h1]
      rfl
  · intro g h
    cases hv : g.val with
    | none => rw [hv] at h; cases h
    | some rd =>
        simp [GuardedResource.destroyer, GuardedResource.allocation_callbacks,
          GuardedResource.deref, GuardedResource.deref_mut, hv]
  · intro g x h
    cases hv : g.val with
    | none => rw [hv] at h; cases h
    | some rd =>
        refine ⟨push_isSome g x h, ?_, ?_⟩
        · simp [GuardedResource.pop, hv]
        · intro p hp
          rw [GuardedResource.pop, hv] at hp
          have h2 := Option.some.inj hp
          rw [← h2]
          rfl

/-- C9 witness: the guard returned by a successful `try_new_from` over one
element is live, and its accessors succeed. -/
theorem claim9_internal_option_always_some_witness :
    ((GuardedResource.new ([5] : List Nat) (42 : Nat) (some 3)).val).isSome
  ∧ ((GuardedResource.new ([5] : List Nat) (42 : Nat)
      (some 3)).destroyer).isSome := by
  have h := claim9_internal_option_always_some (List Nat)
    (vecDestroyable (testDestroyable Nat)) [5] 42 (some 3)
  have hlive := h.2.1 String [Except.ok [5]]
    (GuardedResource.new ([[5]] : List (List Nat)) 42 (some 3)) [] [] rfl
  exact ⟨rfl, ((h.2.2.2.1 (GuardedResource.new ([5] : List Nat) 42 (some 3))
    rfl).1)⟩
